import Mathlib

set_option maxRecDepth 4000

/-!
Verification development for the email2issues application.

The application (types.ts, components/CommandPreview.tsx, App.tsx,
services/geminiService.ts) parses an email into GitHub-issue records via an
external API, reshapes the records (title tagging, merging a quoted context
into the body), and formats `gh issue create` shell commands with escaping.

Strings are modelled at the level of their character lists; the JavaScript
string primitives used by the source (`trim`, `toLowerCase`, `includes`,
single-character global `replace`) are given explicit executable models.
-/

/-- Core whitespace test backing the model of JavaScript `String.prototype.trim`
(the source strings of interest only ever carry ASCII whitespace). -/
def jsWhitespace (c : Char) : Bool :=
  c = ' ' || c = '\t' || c = '\n' || c = '\r' || c = '\x0b' || c = '\x0c'

/-- Model of JavaScript `str.trim()`: drop whitespace from both ends. -/
def jsTrim (s : String) : String :=
  ⟨((s.data.dropWhile jsWhitespace).reverse.dropWhile jsWhitespace).reverse⟩

/-- Model of JavaScript `str.toLowerCase()` on the ASCII range (the label
keywords compared by the source are ASCII). -/
def jsToLower (s : String) : String :=
  ⟨s.data.map Char.toLower⟩

/-- Contiguous-substring test on character lists. -/
def hasSubstrList (needle : List Char) : List Char → Bool
  | [] => needle.isEmpty
  | a :: as => needle.isPrefixOf (a :: as) || hasSubstrList needle as

/-- Model of JavaScript `hay.includes(needle)`. -/
def strIncludes (hay needle : String) : Bool :=
  hasSubstrList needle.data hay.data

/-- Global replacement of the single character `c` by the string `r` on a
character list: model of `s.replace(/c/g, r)` for a single-character pattern. -/
def replaceCharList (c : Char) (r : List Char) : List Char → List Char
  | [] => []
  | a :: as => (if a = c then r else [a]) ++ replaceCharList c r as

/-- Model of JavaScript `s.replace(/c/g, r)` for a single-character pattern. -/
def jsReplaceAll (s : String) (c : Char) (r : String) : String :=
  ⟨replaceCharList c r.data s.data⟩

/-- The backtick character (U+0060). -/
def btChar : Char := Char.ofNat 96

/-- Runtime issue record.  The TypeScript interface `ParsedIssue` (types.ts)
declares `id`, `title`, `body`, `labels` and the optional `originalContext`;
the runtime objects built in geminiService.ts additionally carry the optional
`sender` field returned by the response schema (spread into the record), and
`processParsedIssues` in App.tsx reads `issue.sender`, so the runtime model
includes it.  Optional string fields are `Option String` (`none` = absent). -/
structure ParsedIssue where
  id : String
  title : String
  body : String
  labels : List String
  originalContext : Option String
  sender : Option String
  deriving DecidableEq

/-- The four-state status enum `ProcessingStatus` from types.ts. -/
inductive ProcessingStatus where
  | IDLE
  | ANALYZING
  | COMPLETE
  | ERROR
  deriving DecidableEq

/-- JavaScript truthiness of an optional string: `undefined` and the empty
string are falsy, every other string is truthy. -/
def jsTruthyStr : Option String → Bool
  | none => false
  | some s => decide (s ≠ "")

/-- Title tag selection inside `processParsedIssues` (App.tsx): lower-case all
labels; a label containing "bug" picks "[Bug] ", otherwise a label containing
"feature" or "enhancement" picks "[Feature] ", otherwise no tag. -/
def titleTag (labels : List String) : String :=
  let lower := labels.map jsToLower
  if lower.any (fun l => strIncludes l "bug") then "[Bug] "
  else if lower.any (fun l => strIncludes l "feature" || strIncludes l "enhancement") then
    "[Feature] "
  else ""

/-- The `From <sender>:\n` line of `processParsedIssues`: emitted exactly when
the sender field is truthy (present and non-empty) and not "Unknown". -/
def senderLine (sender : Option String) : String :=
  if jsTruthyStr sender = true ∧ sender.getD "" ≠ "Unknown" then
    "From " ++ sender.getD "" ++ ":\n"
  else ""

/-- Body/context merge step of `processParsedIssues` (App.tsx): when the
`originalContext` field is truthy, prepend the sender line and append the
separator and the quoted context; otherwise leave the body alone. -/
def mergeBody (i : ParsedIssue) : String :=
  if jsTruthyStr i.originalContext = true then
    senderLine i.sender ++ i.body ++ "\n\n---\n\n**Original Context:**\n\n> "
      ++ i.originalContext.getD ""
  else i.body

/-- Per-issue transformation of `processParsedIssues` (App.tsx): tag and trim
the title, merge the context into the body, clear `originalContext`. -/
def processOne (i : ParsedIssue) : ParsedIssue :=
  { i with
      title := jsTrim (titleTag i.labels ++ i.title)
      body := mergeBody i
      originalContext := none }

/-- `processParsedIssues` (App.tsx): map the per-issue transformation. -/
def processParsedIssues (rawIssues : List ParsedIssue) : List ParsedIssue :=
  rawIssues.map processOne

/-- C2: for every raw issue, `processParsedIssues` prefixes the title with
"[Bug] " when some label contains "bug" case-insensitively; otherwise with
"[Feature] " when some label contains "feature" or "enhancement"
case-insensitively; otherwise it leaves the title unprefixed — in each case
with surrounding whitespace trimmed from the resulting title. -/
theorem title_tagging_rule (rawIssues : List ParsedIssue) :
    (processParsedIssues rawIssues).map (fun i => i.title) =
      rawIssues.map (fun i =>
        if i.labels.any (fun lb => strIncludes (jsToLower lb) "bug") then
          jsTrim ("[Bug] " ++ i.title)
        else if i.labels.any (fun lb =>
            strIncludes (jsToLower lb) "feature" || strIncludes (jsToLower lb) "enhancement") then
          jsTrim ("[Feature] " ++ i.title)
        else jsTrim i.title) := by
  simp only [processParsedIssues, List.map_map]
  refine List.map_congr_left ?_
  intro i _
  simp only [Function.comp_apply, processOne, titleTag, List.any_map]
  by_cases h1 : i.labels.any (fun lb => strIncludes (jsToLower lb) "bug") = true
  · simp [Function.comp_def, h1]
  · by_cases h2 : i.labels.any (fun lb =>
        strIncludes (jsToLower lb) "feature" || strIncludes (jsToLower lb) "enhancement") = true
    · simp [Function.comp_def, h1, h2]
    · simp only [Function.comp_def, h1, h2, if_false, Bool.false_eq_true]
      rfl

/-- C9: `processParsedIssues` clears every `originalContext`, keeps `id` and
`labels` unchanged, and consequently re-applying the context-merge step to a
processed issue leaves its body unchanged (the context block is never appended
a second time). -/
theorem process_preserves_id_labels_clears_context (rawIssues : List ParsedIssue) :
    (processParsedIssues rawIssues).map (fun i => i.originalContext)
        = rawIssues.map (fun _ => none) ∧
      (processParsedIssues rawIssues).map (fun i => i.id) = rawIssues.map (fun i => i.id) ∧
      (processParsedIssues rawIssues).map (fun i => i.labels)
        = rawIssues.map (fun i => i.labels) ∧
      (processParsedIssues rawIssues).map mergeBody
        = (processParsedIssues rawIssues).map (fun i => i.body) := by
  refine ⟨?_, ?_, ?_, ?_⟩ <;>
    simp [processParsedIssues, List.map_map, Function.comp_def, processOne, mergeBody, jsTruthyStr]

/-- Concrete raw issue with a non-empty `originalContext` and a present but
empty `sender` field, used to test the sender-line condition. -/
def c3Issue : ParsedIssue :=
  { id := "1", title := "t", body := "b", labels := [],
    originalContext := some "ctx", sender := some "" }

/-- C3 counterexample: for an issue whose sender is present (`some ""`) and is
not the string "Unknown", the claim predicts the body prefix "From :\n", but
the code treats the empty sender as falsy and emits no prefix. -/
theorem empty_sender_gets_no_from_line :
    (processParsedIssues [c3Issue]).map (fun i => i.body)
        = ["b\n\n---\n\n**Original Context:**\n\n> ctx"] ∧
      (processParsedIssues [c3Issue]).map (fun i => i.body)
        ≠ ["From :\nb\n\n---\n\n**Original Context:**\n\n> ctx"] := by
  constructor <;> decide

/-- C3 amended: for every raw issue with a truthy (non-empty) originalContext,
the processed body is the sender line ("From <sender>:\n" exactly when sender
is present, non-empty, and not "Unknown"), then the original body, then the
separator "\n\n---\n\n**Original Context:**\n\n> " and the context quote; an
issue whose originalContext is absent or empty keeps its body unchanged. -/
theorem body_context_merge_rule (rawIssues : List ParsedIssue) :
    (processParsedIssues rawIssues).map (fun i => i.body) =
      rawIssues.map (fun i =>
        match i.originalContext with
        | some oc =>
          if oc ≠ "" then
            (match i.sender with
              | some s => if s ≠ "" ∧ s ≠ "Unknown" then "From " ++ s ++ ":\n" else ""
              | none => "")
              ++ i.body ++ "\n\n---\n\n**Original Context:**\n\n> " ++ oc
          else i.body
        | none => i.body) := by
  simp only [processParsedIssues, List.map_map]
  refine List.map_congr_left ?_
  intro i _
  simp only [Function.comp_apply, processOne, mergeBody, jsTruthyStr, senderLine]
  cases hoc : i.originalContext with
  | none => rfl
  | some oc =>
    by_cases hoce : oc = ""
    · simp [hoce]
    · cases hs : i.sender with
      | none => simp [hoce]
      | some s =>
        by_cases hse : s = ""
        · simp [hse, hoce]
        · by_cases hsu : s = "Unknown"
          · simp [hse, hsu, hoce]
          · simp [hse, hsu, hoce]

/-- `escapeForShell` from App.tsx: empty strings pass through, otherwise
backslashes are escaped first, then double quotes, backticks and dollars. -/
def escapeForShell (s : String) : String :=
  if s = "" then ""
  else jsReplaceAll (jsReplaceAll (jsReplaceAll (jsReplaceAll s '\\' "\\\\") '"' "\\\"")
    btChar "\\`") '$' "\\$"

/-- The character-wise escaping map described by the specification: backslash,
double quote, backtick and dollar each gain a preceding backslash, every other
character maps to itself (spec-words definition, for the refinement claim). -/
def escapeCharSpec (c : Char) : List Char :=
  if c = '\\' then ['\\', '\\']
  else if c = '"' then ['\\', '"']
  else if c = btChar then ['\\', btChar]
  else if c = '$' then ['\\', '$']
  else [c]

/-- The four sequential replacements of `escapeForShell`, on character lists. -/
def escAllList (l : List Char) : List Char :=
  replaceCharList '$' ['\\', '$']
    (replaceCharList btChar ['\\', btChar]
      (replaceCharList '"' ['\\', '"']
        (replaceCharList '\\' ['\\', '\\'] l)))

theorem replaceCharList_append (c : Char) (r xs ys : List Char) :
    replaceCharList c r (xs ++ ys) = replaceCharList c r xs ++ replaceCharList c r ys := by
  induction xs with
  | nil => rfl
  | cons a as ih => simp [replaceCharList, ih]

theorem escAllList_append (xs ys : List Char) :
    escAllList (xs ++ ys) = escAllList xs ++ escAllList ys := by
  simp [escAllList, replaceCharList_append]

theorem escAllList_single (a : Char) : escAllList [a] = escapeCharSpec a := by
  by_cases h1 : a = '\\'
  · subst h1; rfl
  · by_cases h2 : a = '"'
    · subst h2; rfl
    · by_cases h3 : a = btChar
      · subst h3; rfl
      · by_cases h4 : a = '$'
        · subst h4; rfl
        · simp [escAllList, replaceCharList, escapeCharSpec, h1, h2, h3, h4]

theorem escAllList_eq_flatten (l : List Char) :
    escAllList l = (l.map escapeCharSpec).flatten := by
  induction l with
  | nil => rfl
  | cons a as ih =>
    have h : escAllList (a :: as) = escAllList [a] ++ escAllList as := by
      have := escAllList_append [a] as
      simpa using this
    rw [h, escAllList_single, ih]
    simp

/-- Data-level description of `escapeForShell`, shared helper. -/
theorem escapeForShell_data (s : String) :
    (escapeForShell s).data = (s.data.map escapeCharSpec).flatten := by
  by_cases h : s = ""
  · subst h; rfl
  · rw [escapeForShell, if_neg h]
    exact escAllList_eq_flatten s.data

/-- C8: `escapeForShell` is exactly the character-wise image of its input under
the map sending backslash to an escaped backslash, double quote, backtick and
dollar to their escaped forms, and every other character to itself; the empty
string maps to the empty string. -/
theorem escapeForShell_charwise_image (s : String) :
    (escapeForShell s).data = (s.data.map escapeCharSpec).flatten ∧ escapeForShell "" = "" :=
  ⟨escapeForShell_data s, rfl⟩

/-- `generateCommand` from CommandPreview.tsx: the per-issue preview command;
only double quotes are replaced in the title, double quotes and backticks in
the body, labels are interpolated directly. -/
def generateCommand (i : ParsedIssue) : String :=
  let safeTitle := jsReplaceAll i.title '"' "\\\""
  let safeBody := jsReplaceAll (jsReplaceAll i.body '"' "\\\"") btChar "\\`"
  let labelsStr := String.intercalate " " (i.labels.map (fun l => "--label \"" ++ l ++ "\""))
  "gh issue create --title \"" ++ safeTitle ++ "\" --body \"" ++ safeBody ++ "\" " ++ labelsStr

/-- Per-issue command built inside `copyAllCommands` (App.tsx): title and body
run through `escapeForShell`, labels are interpolated directly. -/
def copyAllCommandFor (i : ParsedIssue) : String :=
  let safeTitle := escapeForShell i.title
  let safeBody := escapeForShell i.body
  let labelsStr := String.intercalate " " (i.labels.map (fun l => "--label \"" ++ l ++ "\""))
  "gh issue create --title \"" ++ safeTitle ++ "\" --body \"" ++ safeBody ++ "\" " ++ labelsStr

/-- `copyAllCommands` (App.tsx): one command per issue, joined by newlines. -/
def copyAllCommands (issues : List ParsedIssue) : String :=
  String.intercalate "\n" (issues.map copyAllCommandFor)

/-- C5: every generated command string (per-issue preview and copy-all alike)
has exactly the form `gh issue create --title "<escaped title>" --body
"<escaped body>" ` followed by one `--label "<label>"` flag per label, joined
by single spaces and in the order of the issue's label list; the copy-all
string is these commands joined by newlines. -/
theorem command_string_form (i : ParsedIssue) (issues : List ParsedIssue) :
    generateCommand i =
        "gh issue create --title \"" ++ jsReplaceAll i.title '"' "\\\"" ++ "\" --body \""
          ++ jsReplaceAll (jsReplaceAll i.body '"' "\\\"") btChar "\\`" ++ "\" "
          ++ String.intercalate " " (i.labels.map (fun l => "--label \"" ++ l ++ "\"")) ∧
      copyAllCommandFor i =
        "gh issue create --title \"" ++ escapeForShell i.title ++ "\" --body \""
          ++ escapeForShell i.body ++ "\" "
          ++ String.intercalate " " (i.labels.map (fun l => "--label \"" ++ l ++ "\"")) ∧
      copyAllCommands issues = String.intercalate "\n" (issues.map copyAllCommandFor) :=
  ⟨rfl, rfl, rfl⟩

/-- The command shape demanded by claim C1 (claim-words definition): all of the
title, the body and every label run through `escapeForShell` before embedding. -/
def fullyEscapedCommandClaim (i : ParsedIssue) : String :=
  "gh issue create --title \"" ++ escapeForShell i.title ++ "\" --body \""
    ++ escapeForShell i.body ++ "\" "
    ++ String.intercalate " " (i.labels.map (fun l => "--label \"" ++ escapeForShell l ++ "\""))

/-- Concrete issue with a dollar sign in the title and a double quote in its
label, used to test the escaping discipline. -/
def c1Issue : ParsedIssue :=
  { id := "1", title := "a$", body := "b", labels := ["l\""],
    originalContext := none, sender := none }

/-- C1 counterexample: the preview command leaves the dollar sign of the title
unescaped, and both commands embed the label's double quote unescaped, so
neither command equals the fully escaped form the claim demands. -/
theorem embedded_strings_not_fully_escaped :
    generateCommand c1Issue ≠ fullyEscapedCommandClaim c1Issue ∧
      copyAllCommandFor c1Issue ≠ fullyEscapedCommandClaim c1Issue := by
  constructor <;> decide

theorem string_data_append (a b : String) : (a ++ b).data = a.data ++ b.data := rfl

/-- C1 amended: in the copy-all command the title and the body have their
backslashes, double quotes, backticks and dollar signs escaped (they are the
character-wise `escapeForShell` image of the originals), while in the per-issue
preview command only double quotes are escaped in the title and only double
quotes and backticks in the body; every label is embedded verbatim, unescaped,
in both commands. -/
theorem escaping_discipline_amended (i : ParsedIssue) :
    (copyAllCommandFor i).data =
        "gh issue create --title \"".data ++ (i.title.data.map escapeCharSpec).flatten
          ++ "\" --body \"".data ++ (i.body.data.map escapeCharSpec).flatten ++ "\" ".data
          ++ (String.intercalate " " (i.labels.map (fun l => "--label \"" ++ l ++ "\""))).data ∧
      generateCommand i =
        "gh issue create --title \"" ++ jsReplaceAll i.title '"' "\\\"" ++ "\" --body \""
          ++ jsReplaceAll (jsReplaceAll i.body '"' "\\\"") btChar "\\`" ++ "\" "
          ++ String.intercalate " " (i.labels.map (fun l => "--label \"" ++ l ++ "\"")) := by
  constructor
  · show ("gh issue create --title \"" ++ escapeForShell i.title ++ "\" --body \""
      ++ escapeForShell i.body ++ "\" "
      ++ String.intercalate " " (i.labels.map (fun l => "--label \"" ++ l ++ "\""))).data = _
    simp only [string_data_append, escapeForShell_data, List.append_assoc]
  · rfl

/-- Field list of the TypeScript interface `ParsedIssue` (types.ts), in
declaration order, paired with whether the field is required (`true`) or
optional (`false`): `id`, `title`, `body`, `labels` required, `originalContext`
optional.  No `sender` field is declared there. -/
def parsedIssueDeclaredFields : List (String × Bool) :=
  [("id", true), ("title", true), ("body", true), ("labels", true), ("originalContext", false)]

/-- The field list claim C7 asserts for the issue record (claim-words
definition): title, body, labels, optional original-quote, optional sender. -/
def claimC7Fields : List (String × Bool) :=
  [("title", true), ("body", true), ("labels", true), ("originalContext", false),
    ("sender", false)]

/-- C7 counterexample: the declared issue record differs from the claimed field
set — it contains an `id` field the claim omits, and it declares no `sender`
field although the claim lists one. -/
theorem declared_fields_differ_from_claim :
    ("id" ∈ parsedIssueDeclaredFields.map Prod.fst
        ∧ "id" ∉ claimC7Fields.map Prod.fst) ∧
      ("sender" ∈ claimC7Fields.map Prod.fst
        ∧ "sender" ∉ parsedIssueDeclaredFields.map Prod.fst) := by
  constructor <;> constructor <;> decide

/-- C7 amended: the issue record declared by the program's types contains
exactly the fields id, title, body, a label list, and an optional
original-quote field (no sender field is declared, although the runtime
records carry one); the status flag has exactly the four distinct states IDLE,
ANALYZING, COMPLETE, ERROR. -/
theorem declared_fields_and_status_states :
    parsedIssueDeclaredFields.map Prod.fst = ["id", "title", "body", "labels", "originalContext"]
      ∧ (parsedIssueDeclaredFields.filter (fun f => !f.2)).map Prod.fst = ["originalContext"]
      ∧ "sender" ∉ parsedIssueDeclaredFields.map Prod.fst
      ∧ (∀ st : ProcessingStatus, st = ProcessingStatus.IDLE ∨ st = ProcessingStatus.ANALYZING
          ∨ st = ProcessingStatus.COMPLETE ∨ st = ProcessingStatus.ERROR)
      ∧ [ProcessingStatus.IDLE, ProcessingStatus.ANALYZING, ProcessingStatus.COMPLETE,
          ProcessingStatus.ERROR].Nodup := by
  refine ⟨by decide, by decide, by decide, ?_, by decide⟩
  intro st
  cases st
  · exact Or.inl rfl
  · exact Or.inr (Or.inl rfl)
  · exact Or.inr (Or.inr (Or.inl rfl))
  · exact Or.inr (Or.inr (Or.inr rfl))

/-- Result of the asynchronous `parseEmailToIssues` call as observed by
`handleGenerate`: either the promise rejected, or it resolved with a list of
raw issues (geminiService.ts returns `[]` when the response carries no text). -/
inductive ApiResult where
  | thrown
  | ok (raw : List ParsedIssue)
  deriving DecidableEq

/-- The React state of the `App` component (App.tsx): the two form fields, the
issue list, the status flag and the error message. -/
structure AppState where
  subject : String
  body : String
  issues : List ParsedIssue
  status : ProcessingStatus
  errorMsg : Option String
  deriving DecidableEq

/-- The static error message set when the API call rejects. -/
def failMsg : String := "Failed to parse email. Please check your API key and try again."

/-- The static error message set when the API call returns no issues. -/
def noIssuesMsg : String := "No actionable requests found in the email content."

/-- The synchronous opening of `handleGenerate` once past its guard: status to
ANALYZING, error message cleared, previous results cleared. -/
def startAnalyzing (s : AppState) : AppState :=
  { s with status := ProcessingStatus.ANALYZING, errorMsg := none, issues := [] }

/-- The continuation of `handleGenerate` once the API call settles: rejection
sets the failure message and ERROR; an empty list sets the no-issues message
and IDLE; otherwise the processed issues are stored and status is COMPLETE. -/
def completeGenerate (s : AppState) (r : ApiResult) : AppState :=
  match r with
  | ApiResult.thrown =>
    { s with errorMsg := some failMsg, status := ProcessingStatus.ERROR }
  | ApiResult.ok raw =>
    if raw.isEmpty then
      { s with errorMsg := some noIssuesMsg, status := ProcessingStatus.IDLE }
    else
      { s with issues := processParsedIssues raw, status := ProcessingStatus.COMPLETE }

/-- End-to-end state effect of one run of `handleGenerate` (App.tsx) whose API
call settles with result `r`: the guard returns unchanged when both trimmed
form fields are empty, otherwise the analyzing state is opened and then
completed with `r`. -/
def handleGenerate (s : AppState) (r : ApiResult) : AppState :=
  if jsTrim s.subject = "" ∧ jsTrim s.body = "" then s
  else completeGenerate (startAnalyzing s) r

/-- The error message actually rendered by `App` (App.tsx): the error panel is
mounted only when the status is ERROR, and it shows `errorMsg`. -/
def displayedError (s : AppState) : Option String :=
  if s.status = ProcessingStatus.ERROR then s.errorMsg else none

/-- The `disabled` condition of the Generate button (App.tsx): disabled while
ANALYZING or while both untrimmed form fields are empty. -/
def generateButtonDisabled (s : AppState) : Bool :=
  decide (s.status = ProcessingStatus.ANALYZING)
    || (decide (s.subject = "") && decide (s.body = ""))

/-- Concrete pre-call state for exercising the empty-result path. -/
def c4State : AppState :=
  { subject := "x", body := "", issues := [], status := ProcessingStatus.IDLE,
    errorMsg := none }

/-- C4: when the API call resolves with an empty issue list, `handleGenerate`
stores the static no-issues message but sets the status to IDLE, and the UI
renders the error panel only in the ERROR status, so no error message is
displayed — contradicting the documented single error path. -/
theorem empty_result_sets_hidden_error :
    (handleGenerate c4State (ApiResult.ok [])).errorMsg = some noIssuesMsg ∧
      (handleGenerate c4State (ApiResult.ok [])).status = ProcessingStatus.IDLE ∧
      displayedError (handleGenerate c4State (ApiResult.ok [])) = none ∧
      displayedError (handleGenerate c4State ApiResult.thrown) = some failMsg := by
  refine ⟨?_, ?_, ?_, ?_⟩ <;> decide

/-- C10: when subject and body are both empty after trimming, `handleGenerate`
returns without any state change — the issue list, status and error message
stay exactly as they were — even though such whitespace-only input passes the
button's enabled check, which tests the untrimmed strings. -/
theorem whitespace_only_generate_is_noop (s : AppState) (r : ApiResult)
    (h1 : jsTrim s.subject = "") (h2 : jsTrim s.body = "") :
    handleGenerate s r = s ∧
      (s.subject ≠ "" → s.status ≠ ProcessingStatus.ANALYZING
        → generateButtonDisabled s = false) := by
  constructor
  · simp [handleGenerate, h1, h2]
  · intro hs hst
    simp [generateButtonDisabled, hs, hst]

/-- Witness for C10 at the concrete state with a whitespace-only subject. -/
def c10State : AppState :=
  { subject := " ", body := "", issues := [], status := ProcessingStatus.IDLE,
    errorMsg := none }

theorem whitespace_only_generate_is_noop_witness :
    jsTrim c10State.subject = "" ∧ jsTrim c10State.body = "" ∧
      (handleGenerate c10State ApiResult.thrown = c10State ∧
        (c10State.subject ≠ "" → c10State.status ≠ ProcessingStatus.ANALYZING
          → generateButtonDisabled c10State = false)) :=
  ⟨by decide, by decide,
    whitespace_only_generate_is_noop c10State ApiResult.thrown (by decide) (by decide)⟩

/-- `handleDeleteIssue` (App.tsx): remove the issue by id; the status falls
back to IDLE when the pre-filter list had at most one element (the stale
`issues` closure the source reads). -/
def deleteFromApp (s : AppState) (delId : String) : AppState :=
  { s with
      issues := s.issues.filter (fun i => decide (i.id ≠ delId))
      status := if s.issues.length ≤ 1 then ProcessingStatus.IDLE else s.status }

/-- `handleUpdateIssue` (App.tsx): replace the issue with a matching id. -/
def updateInApp (s : AppState) (u : ParsedIssue) : AppState :=
  { s with issues := s.issues.map (fun i => if i.id = u.id then u else i) }


/-- Whole-system state: the App component state plus the number of
`parseEmailToIssues` calls currently outstanding. -/
structure SysState where
  app : AppState
  outstanding : Nat
  deriving DecidableEq

/-- The initial mount of `App`: empty form, no issues, IDLE, no error, no
outstanding request. -/
def initSysState : SysState :=
  { app := { subject := "", body := "", issues := [], status := ProcessingStatus.IDLE,
             errorMsg := none },
    outstanding := 0 }

/-- One step of the UI event system.  User-initiated steps carry the guard
under which the source renders (and enables) the corresponding control:
the Generate button is clickable only when not disabled; the Try Again button
exists only on the ERROR panel; Clear, Remove and Save Changes exist only when
the issue list is rendered (non-empty).  `apiReturn` is the settling of an
outstanding `parseEmailToIssues` call; only `clickGenerate` starts one. -/
inductive Step : SysState → SysState → Prop where
  | editSubject (s : SysState) (v : String) :
      Step s { s with app := { s.app with subject := v } }
  | editBody (s : SysState) (v : String) :
      Step s { s with app := { s.app with body := v } }
  | clickGenerate (s : SysState)
      (henabled : generateButtonDisabled s.app = false)
      (hrun : ¬(jsTrim s.app.subject = "" ∧ jsTrim s.app.body = "")) :
      Step s { app := startAnalyzing s.app, outstanding := s.outstanding + 1 }
  | clickGenerateGuarded (s : SysState)
      (henabled : generateButtonDisabled s.app = false)
      (hrun : jsTrim s.app.subject = "" ∧ jsTrim s.app.body = "") :
      Step s s
  | apiReturn (s : SysState) (r : ApiResult) (hp : 0 < s.outstanding) :
      Step s { app := completeGenerate s.app r, outstanding := s.outstanding - 1 }
  | clickTryAgain (s : SysState) (h : s.app.status = ProcessingStatus.ERROR) :
      Step s { s with app := { s.app with status := ProcessingStatus.IDLE } }
  | clickClear (s : SysState) (h : s.app.issues ≠ []) :
      Step s { s with app := { s.app with issues := [] } }
  | clickDelete (s : SysState) (delId : String) (h : s.app.issues ≠ []) :
      Step s { s with app := deleteFromApp s.app delId }
  | saveEdit (s : SysState) (u : ParsedIssue) (h : s.app.issues ≠ []) :
      Step s { s with app := updateInApp s.app u }

/-- States reachable from the initial mount. -/
inductive Reachable : SysState → Prop where
  | init : Reachable initSysState
  | step {s t : SysState} : Reachable s → Step s t → Reachable t

/-- Inductive invariant: at most one call outstanding, and while one is
outstanding the status is ANALYZING and the issue list is empty. -/
def SysInv (s : SysState) : Prop :=
  s.outstanding ≤ 1
    ∧ (s.outstanding = 1
        → s.app.status = ProcessingStatus.ANALYZING ∧ s.app.issues = [])

theorem sysInv_init : SysInv initSysState :=
  ⟨Nat.zero_le 1, fun h => absurd h (by decide)⟩

theorem sysInv_step (s t : SysState) (hinv : SysInv s) (hstep : Step s t) : SysInv t := by
  obtain ⟨hle, himp⟩ := hinv
  cases hstep with
  | editSubject v => exact ⟨hle, himp⟩
  | editBody v => exact ⟨hle, himp⟩
  | clickGenerate henabled hrun =>
    have hne : s.app.status ≠ ProcessingStatus.ANALYZING := by
      intro heq
      simp [generateButtonDisabled, heq] at henabled
    have hp0 : s.outstanding = 0 := by
      by_contra hc
      have h1 : s.outstanding = 1 := by omega
      exact hne (himp h1).1
    refine ⟨?_, fun _ => ⟨rfl, rfl⟩⟩
    show s.outstanding + 1 ≤ 1
    omega
  | clickGenerateGuarded henabled hrun => exact ⟨hle, himp⟩
  | apiReturn r hp =>
    refine ⟨?_, fun h1 => ?_⟩
    · show s.outstanding - 1 ≤ 1
      omega
    · have h2 : s.outstanding - 1 = 1 := h1
      exact absurd h2 (by omega)
  | clickTryAgain h =>
    refine ⟨hle, fun h1 => ?_⟩
    have h2 : s.outstanding = 1 := h1
    have h3 := (himp h2).1
    rw [h] at h3
    exact absurd h3 (by decide)
  | clickClear h =>
    refine ⟨hle, fun h1 => ?_⟩
    have h2 : s.outstanding = 1 := h1
    exact absurd (himp h2).2 h
  | clickDelete delId h =>
    refine ⟨hle, fun h1 => ?_⟩
    have h2 : s.outstanding = 1 := h1
    exact absurd (himp h2).2 h
  | saveEdit u h =>
    refine ⟨hle, fun h1 => ?_⟩
    have h2 : s.outstanding = 1 := h1
    exact absurd (himp h2).2 h

theorem sysInv_reachable (s : SysState) (h : Reachable s) : SysInv s := by
  induction h with
  | init => exact sysInv_init
  | step hr hstep ih => exact sysInv_step _ _ ih hstep

/-- C6: at most one asynchronous API request is outstanding in any reachable
system state, and from a reachable state whose status is ANALYZING no step can
initiate another `parseEmailToIssues` call — every step keeps the number of
outstanding calls from growing until the first call completes. -/
theorem single_outstanding_request (s : SysState) (h : Reachable s) :
    s.outstanding ≤ 1
      ∧ (s.app.status = ProcessingStatus.ANALYZING
          → ∀ t : SysState, Step s t → t.outstanding ≤ s.outstanding) := by
  refine ⟨(sysInv_reachable s h).1, fun hA t hstep => ?_⟩
  cases hstep with
  | editSubject v => exact Nat.le_refl _
  | editBody v => exact Nat.le_refl _
  | clickGenerate henabled hrun =>
    exact absurd henabled (by simp [generateButtonDisabled, hA])
  | clickGenerateGuarded henabled hrun => exact Nat.le_refl _
  | apiReturn r hp => exact Nat.sub_le _ _
  | clickTryAgain hguard => exact Nat.le_refl _
  | clickClear hguard => exact Nat.le_refl _
  | clickDelete delId hguard => exact Nat.le_refl _
  | saveEdit u hguard => exact Nat.le_refl _

theorem single_outstanding_request_witness :
    initSysState.outstanding ≤ 1
      ∧ (initSysState.app.status = ProcessingStatus.ANALYZING
          → ∀ t : SysState, Step initSysState t → t.outstanding ≤ initSysState.outstanding) :=
  single_outstanding_request initSysState Reachable.init
